import Mathlib

/-!
Verification of the Mechanical Property and Fatigue-Design Analysis Engine
of the Materials Digital Laboratory application (src/app.py).

The analytic core of the source is embedded shallowly over the rationals:
the strain and stress columns become lists of rationals, the pandas and
numpy operations become the corresponding pure list functions, and the
module-level scalar pipeline (modulus fit, offset line, yield search,
strength extraction, failure classification, fatigue life) becomes a
family of pure functions of a `Sample`.

Components the specification describes whose implementation is not among
the provided source files (CurveValidator, FatigueDesignEvaluator,
HeatTreatmentPredictor) are modelled from the specification text; each
such definition carries a doc comment saying so.
-/

namespace MaterialsLab

/-- A strain/stress sample: the two numeric columns of an uploaded CSV,
in loading order (`data["strain"]`, `data["stress"]` in src/app.py). -/
structure Sample where
  strain : List ℚ
  stress : List ℚ
deriving DecidableEq

/-- Index of the first minimum of a list of rationals: the behaviour of
`pandas.Series.idxmin` on a series with the default integer index
(src/app.py line 105). Returns 0 on the empty list. -/
def idxmin : List ℚ → ℕ
  | [] => 0
  | [_] => 0
  | x :: y :: t =>
    if x ≤ (y :: t).getD (idxmin (y :: t)) 0 then 0 else idxmin (y :: t) + 1

/-- Index of the first maximum of a list of rationals: the behaviour of
`numpy.argmax` (src/app.py line 108). Returns 0 on the empty list. -/
def argmax : List ℚ → ℕ
  | [] => 0
  | [_] => 0
  | x :: y :: t =>
    if (y :: t).getD (argmax (y :: t)) 0 ≤ x then 0 else argmax (y :: t) + 1

/-- The slope coefficient of `np.polyfit(xs, ys, 1)`: the closed-form
solution of the degree-1 least-squares normal equations,
`(n*Σxy − Σx*Σy) / (n*Σx² − (Σx)²)` (src/app.py line 103). -/
def polyfitSlope (xs ys : List ℚ) : ℚ :=
  ((xs.length : ℚ) * (List.zipWith (fun a b => a * b) xs ys).sum - xs.sum * ys.sum) /
    ((xs.length : ℚ) * (xs.map (fun a => a * a)).sum - xs.sum * xs.sum)

/-- `E = np.polyfit(strain[:5], stress[:5], 1)[0]` (src/app.py line 103):
the least-squares slope over the first five sample points. -/
def E (s : Sample) : ℚ := polyfitSlope (s.strain.take 5) (s.stress.take 5)

/-- `offset_line = E * (strain + 0.002)` (src/app.py line 104), elementwise
over the strain column, with the modulus passed explicitly. -/
def offset_line (e : ℚ) (strain : List ℚ) : List ℚ :=
  strain.map (fun ε => e * (ε + 1 / 500))

/-- `yield_index = np.abs(stress - offset_line).idxmin()` (src/app.py
line 105): index of the first minimum of the elementwise absolute
difference between the stress column and the offset line. -/
def yield_index (e : ℚ) (s : Sample) : ℕ :=
  idxmin (List.zipWith (fun σ o => |σ - o|) s.stress (offset_line e s.strain))

/-- `yield_stress = stress.iloc[yield_index]` (src/app.py line 107). -/
def yield_stress (e : ℚ) (s : Sample) : ℚ := s.stress.getD (yield_index e s) 0

/-- `strain.iloc[yield_index]`, the strain plotted for the yield marker
(src/app.py line 127). -/
def yield_strain (e : ℚ) (s : Sample) : ℚ := s.strain.getD (yield_index e s) 0

/-- `uts_index = np.argmax(stress)` (src/app.py line 108). -/
def uts_index (s : Sample) : ℕ := argmax s.stress

/-- `uts_stress = stress.iloc[uts_index]` (src/app.py line 109). -/
def uts_stress (s : Sample) : ℚ := s.stress.getD (uts_index s) 0

/-- `fracture_stress = stress.iloc[-1]` (src/app.py line 110). -/
def fracture_stress (s : Sample) : ℚ := s.stress.getLastD 0

/-- `fracture_strain = strain.iloc[-1]` (src/app.py line 111). -/
def fracture_strain (s : Sample) : ℚ := s.strain.getLastD 0

/-- The failure modes named by the classifier (src/app.py lines 183-191). -/
inductive FailureMode where
  | ductileCupCone
  | brittleCleavage
  | lowCycleFatigue
deriving DecidableEq

/-- The failure-mode decision chain of src/app.py lines 181-191: first
`fracture_strain > 0.25`, else `stress_drop > 0.5 * uts_stress` where
`stress_drop = uts_stress - fracture_stress`, else the default mode.
Arguments: UTS stress, fracture stress, fracture strain. -/
def failure (u f ε : ℚ) : FailureMode :=
  if 1 / 4 < ε then .ductileCupCone
  else if 1 / 2 * u < u - f then .brittleCleavage
  else .lowCycleFatigue

/-- The recommended heat treatment string per failure mode (src/app.py
lines 184-191). -/
def heat : FailureMode → String
  | .ductileCupCone => "Normalizing / Annealing"
  | .brittleCleavage => "Annealing"
  | .lowCycleFatigue => "Quench & Temper"

/-- `fatigue_life = (1000 / working_stress)**3 * 1e6` (src/app.py line 168). -/
def fatigue_life (working_stress : ℚ) : ℚ :=
  (1000 / working_stress) ^ 3 * 1000000

/-- The safe/fail badge decision `fatigue_life >= 1e6` (src/app.py
line 170): true renders SAFE DESIGN, false renders FAILURE LIKELY. -/
def safe_design (working_stress : ℚ) : Bool :=
  decide (1000000 ≤ fatigue_life working_stress)

/-- Validity of a sample per the specification data model: equal column
lengths, at least five rows, non-decreasing strain, non-negative strain. -/
def ValidSample (s : Sample) : Prop :=
  s.strain.length = s.stress.length ∧ 5 ≤ s.strain.length ∧
    List.Chain' (fun a b => a ≤ b) s.strain ∧ ∀ x ∈ s.strain, 0 ≤ x

instance (s : Sample) : Decidable (ValidSample s) :=
  inferInstanceAs (Decidable (_ ∧ _ ∧ _ ∧ _))

/-- The fixture sample of the specification:
strain [0, .01, .02, .05, .1], stress [0, 200, 350, 400, 380]. -/
def fixture : Sample :=
  ⟨[0, 1 / 100, 1 / 50, 1 / 20, 1 / 10], [0, 200, 350, 400, 380]⟩

/-! ### Components modelled from the specification

The implementation of the following components is not among the provided
source files (the application file only loads the CSV columns directly and
never branches on Goodman/Soderberg/Gerber or heat-treatment choices), so
they are modelled from the specification text. -/

/-- The error taxonomy of the specification (section 7). -/
inductive EngineError where
  | malformedInput
  | invalidCurve
  | degenerateFit
  | divisionByZero
deriving DecidableEq

/-- A raw uploaded table: each column is absent, or a list of cells each of
which is numeric (`some q`) or non-numeric (`none`). -/
structure RawTable where
  strainCol : Option (List (Option ℚ))
  stressCol : Option (List (Option ℚ))

/-- All cells of a column as numbers, or `none` when any cell is
non-numeric. -/
def allNumeric : List (Option ℚ) → Option (List ℚ)
  | [] => some []
  | none :: _ => none
  | some q :: t => (allNumeric t).map (fun r => q :: r)

/-- Modelled from the spec: CurveValidator (section 4.1). Fails with
`MalformedInputError` when either column is missing, non-numeric, empty or
shorter than five rows, fails with `InvalidCurveError` when the strain
column is not monotonically non-decreasing, and otherwise returns the
immutable sample. -/
def validateCurve (t : RawTable) : Except EngineError Sample :=
  match t.strainCol, t.stressCol with
  | some sc, some tc =>
    match allNumeric sc, allNumeric tc with
    | some xs, some ys =>
      if xs.length < 5 ∨ ys.length < 5 then .error .malformedInput
      else if List.Chain' (fun a b => a ≤ b) xs then .ok ⟨xs, ys⟩
      else .error .invalidCurve
    | _, _ => .error .malformedInput
  | _, _ => .error .malformedInput

/-- The selectable empirical fatigue-design criteria (specification
section 4.5). -/
inductive FatigueMethod where
  | goodman
  | soderberg
  | gerber
deriving DecidableEq

/-- Modelled from the spec: the endurance limit `0.5 * utsStress`
(section 4.5). -/
def enduranceLimit (uts : ℚ) : ℚ := 1 / 2 * uts

/-- Modelled from the spec: FatigueDesignEvaluator allowable stress per
method (section 4.5). Arguments: method, UTS stress, yield stress,
working stress. -/
def allowableStress (m : FatigueMethod) (uts ys w : ℚ) : ℚ :=
  match m with
  | .goodman => enduranceLimit uts * (1 - w / uts)
  | .soderberg => enduranceLimit uts * (1 - w / ys)
  | .gerber => enduranceLimit uts * (1 - (w / uts) ^ 2)

/-- Modelled from the spec: safe threshold `allowable / factorOfSafety`
(section 4.5). -/
def safeThreshold (m : FatigueMethod) (uts ys w fos : ℚ) : ℚ :=
  allowableStress m uts ys w / fos

/-- Modelled from the spec: verdict `isSafe = workingStress <
safeThreshold`, a strict inequality (section 4.5). -/
def isSafe (m : FatigueMethod) (uts ys w fos : ℚ) : Bool :=
  decide (w < safeThreshold m uts ys w fos)

/-- The heat-treatment choices (specification section 4.8). -/
inductive Treatment where
  | annealed
  | normalized
  | quenched
  | tempered
deriving DecidableEq

/-- Ductility labels of the heat-treatment table (section 4.8). -/
inductive Ductility where
  | low
  | medium
  | high
deriving DecidableEq

/-- The predicted profile of a heat treatment (section 4.8). -/
structure HeatTreatmentProfile where
  modifiedYieldStress : ℚ
  ductilityLevel : Ductility
  predictedMicrostructure : String
deriving DecidableEq

/-- Modelled from the spec: HeatTreatmentPredictor lookup table
(section 4.8): Annealed x0.8, Normalized x1.0, Quenched x1.4,
Tempered x1.2 on the yield stress, with fixed labels. -/
def heatTreatmentPredict (t : Treatment) (y : ℚ) : HeatTreatmentProfile :=
  match t with
  | .annealed => ⟨4 / 5 * y, .high, "Ferrite+Pearlite"⟩
  | .normalized => ⟨1 * y, .medium, "Fine Pearlite"⟩
  | .quenched => ⟨7 / 5 * y, .low, "Martensite"⟩
  | .tempered => ⟨6 / 5 * y, .medium, "Tempered Martensite/Bainite"⟩

/-! ### Helper lemmas about the list primitives -/

theorem idxmin_cons_cons (x y : ℚ) (t : List ℚ) :
    idxmin (x :: y :: t) =
      if x ≤ (y :: t).getD (idxmin (y :: t)) 0 then 0 else idxmin (y :: t) + 1 := rfl

theorem idxmin_lt_length (l : List ℚ) (h : l ≠ []) : idxmin l < l.length := by
  induction l with
  | nil => simp at h
  | cons x xs ih =>
    cases xs with
    | nil => simp [idxmin]
    | cons y t =>
      rw [idxmin_cons_cons]
      split
      · simp
      · have := ih (by simp)
        simpa using Nat.succ_lt_succ this

theorem idxmin_le (l : List ℚ) (i : ℕ) (hi : i < l.length) :
    l.getD (idxmin l) 0 ≤ l.getD i 0 := by
  induction l generalizing i with
  | nil => simp at hi
  | cons x xs ih =>
    cases xs with
    | nil =>
      have hi0 : i = 0 := by simpa using Nat.lt_one_iff.mp (by simpa using hi)
      subst hi0
      simp [idxmin]
    | cons y t =>
      rw [idxmin_cons_cons]
      split
      next h =>
        cases i with
        | zero => simp
        | succ k =>
          have hk : k < (y :: t).length := by simpa using hi
          simp only [List.getD_cons_zero, List.getD_cons_succ]
          exact le_trans h (ih k hk)
      next h =>
        push_neg at h
        cases i with
        | zero =>
          simp only [List.getD_cons_zero, List.getD_cons_succ]
          exact le_of_lt h
        | succ k =>
          have hk : k < (y :: t).length := by simpa using hi
          simp only [List.getD_cons_succ]
          exact ih k hk

theorem idxmin_first (l : List ℚ) (j : ℕ) (hj : j < idxmin l) :
    l.getD (idxmin l) 0 < l.getD j 0 := by
  induction l generalizing j with
  | nil => simp [idxmin] at hj
  | cons x xs ih =>
    cases xs with
    | nil => simp [idxmin] at hj
    | cons y t =>
      by_cases h : x ≤ (y :: t).getD (idxmin (y :: t)) 0
      · rw [idxmin_cons_cons, if_pos h] at hj
        exact absurd hj (Nat.not_lt_zero j)
      · rw [idxmin_cons_cons, if_neg h] at hj ⊢
        push_neg at h
        cases j with
        | zero => simpa using h
        | succ k =>
          have hk : k < idxmin (y :: t) := Nat.succ_lt_succ_iff.mp hj
          simp only [List.getD_cons_succ]
          exact ih k hk

theorem argmax_cons_cons (x y : ℚ) (t : List ℚ) :
    argmax (x :: y :: t) =
      if (y :: t).getD (argmax (y :: t)) 0 ≤ x then 0 else argmax (y :: t) + 1 := rfl

theorem argmax_lt_length (l : List ℚ) (h : l ≠ []) : argmax l < l.length := by
  induction l with
  | nil => simp at h
  | cons x xs ih =>
    cases xs with
    | nil => simp [argmax]
    | cons y t =>
      rw [argmax_cons_cons]
      split
      · simp
      · have := ih (by simp)
        simpa using Nat.succ_lt_succ this

theorem le_argmax (l : List ℚ) (i : ℕ) (hi : i < l.length) :
    l.getD i 0 ≤ l.getD (argmax l) 0 := by
  induction l generalizing i with
  | nil => simp at hi
  | cons x xs ih =>
    cases xs with
    | nil =>
      have hi0 : i = 0 := by simpa using Nat.lt_one_iff.mp (by simpa using hi)
      subst hi0
      simp [argmax]
    | cons y t =>
      rw [argmax_cons_cons]
      split
      next h =>
        cases i with
        | zero => simp
        | succ k =>
          have hk : k < (y :: t).length := by simpa using hi
          simp only [List.getD_cons_zero, List.getD_cons_succ]
          exact le_trans (ih k hk) h
      next h =>
        push_neg at h
        cases i with
        | zero =>
          simp only [List.getD_cons_zero, List.getD_cons_succ]
          exact le_of_lt h
        | succ k =>
          have hk : k < (y :: t).length := by simpa using hi
          simp only [List.getD_cons_succ]
          exact ih k hk

theorem argmax_first (l : List ℚ) (j : ℕ) (hj : j < argmax l) :
    l.getD j 0 < l.getD (argmax l) 0 := by
  induction l generalizing j with
  | nil => simp [argmax] at hj
  | cons x xs ih =>
    cases xs with
    | nil => simp [argmax] at hj
    | cons y t =>
      by_cases h : (y :: t).getD (argmax (y :: t)) 0 ≤ x
      · rw [argmax_cons_cons, if_pos h] at hj
        exact absurd hj (Nat.not_lt_zero j)
      · rw [argmax_cons_cons, if_neg h] at hj ⊢
        push_neg at h
        cases j with
        | zero => simpa using h
        | succ k =>
          have hk : k < argmax (y :: t) := Nat.succ_lt_succ_iff.mp hj
          simp only [List.getD_cons_succ]
          exact ih k hk

theorem getLastD_eq_getD (l : List ℚ) (h : l ≠ []) :
    l.getLastD 0 = l.getD (l.length - 1) 0 := by
  have hlen : l.length - 1 < l.length := by
    cases l with
    | nil => simp at h
    | cons a t => simp
  rw [List.getLastD_eq_getLast?, List.getLast?_eq_getLast_of_ne_nil h, Option.getD_some,
    List.getD_eq_getElem _ _ hlen, List.getLast_eq_getElem]

theorem getD_zipWith (f : ℚ → ℚ → ℚ) (l1 l2 : List ℚ) (i : ℕ)
    (h1 : i < l1.length) (h2 : i < l2.length) :
    (List.zipWith f l1 l2).getD i 0 = f (l1.getD i 0) (l2.getD i 0) := by
  have hz : i < (List.zipWith f l1 l2).length := by
    rw [List.length_zipWith]; exact lt_min h1 h2
  rw [List.getD_eq_getElem _ _ hz, List.getD_eq_getElem _ _ h1, List.getD_eq_getElem _ _ h2,
    List.getElem_zipWith]

theorem getD_map (g : ℚ → ℚ) (l : List ℚ) (i : ℕ) (h : i < l.length) :
    (l.map g).getD i 0 = g (l.getD i 0) := by
  have hm : i < (l.map g).length := by simpa using h
  rw [List.getD_eq_getElem _ _ hm, List.getD_eq_getElem _ _ h, List.getElem_map]

theorem getD_mem_of_lt (l : List ℚ) (i : ℕ) (h : i < l.length) : l.getD i 0 ∈ l := by
  rw [List.getD_eq_getElem _ _ h]
  exact List.getElem_mem h

/-! ### Specification-side definitions used to state the claims -/

/-- The mean of five rationals (used by the textbook regression slope). -/
def mean5 (x0 x1 x2 x3 x4 : ℚ) : ℚ := (x0 + x1 + x2 + x3 + x4) / 5

/-- The textbook closed-form least-squares linear-regression slope of five
points: centered covariance over centered variance. Stated from the
specification (sections 4.2 and 8) for comparison with the source
definition `E`. -/
def lsqSlope5 (x0 x1 x2 x3 x4 y0 y1 y2 y3 y4 : ℚ) : ℚ :=
  ((x0 - mean5 x0 x1 x2 x3 x4) * (y0 - mean5 y0 y1 y2 y3 y4) +
      (x1 - mean5 x0 x1 x2 x3 x4) * (y1 - mean5 y0 y1 y2 y3 y4) +
      (x2 - mean5 x0 x1 x2 x3 x4) * (y2 - mean5 y0 y1 y2 y3 y4) +
      (x3 - mean5 x0 x1 x2 x3 x4) * (y3 - mean5 y0 y1 y2 y3 y4) +
      (x4 - mean5 x0 x1 x2 x3 x4) * (y4 - mean5 y0 y1 y2 y3 y4)) /
    ((x0 - mean5 x0 x1 x2 x3 x4) * (x0 - mean5 x0 x1 x2 x3 x4) +
      (x1 - mean5 x0 x1 x2 x3 x4) * (x1 - mean5 x0 x1 x2 x3 x4) +
      (x2 - mean5 x0 x1 x2 x3 x4) * (x2 - mean5 x0 x1 x2 x3 x4) +
      (x3 - mean5 x0 x1 x2 x3 x4) * (x3 - mean5 x0 x1 x2 x3 x4) +
      (x4 - mean5 x0 x1 x2 x3 x4) * (x4 - mean5 x0 x1 x2 x3 x4))

theorem take5_cons (a0 a1 a2 a3 a4 : ℚ) (r : List ℚ) :
    List.take 5 (a0 :: a1 :: a2 :: a3 :: a4 :: r) = [a0, a1, a2, a3, a4] := rfl

theorem div_eq_div_of_mul5 (a b c d : ℚ) (h1 : a = 5 * c) (h2 : b = 5 * d) :
    a / b = c / d := by
  subst h1 h2
  exact mul_div_mul_left _ _ (by norm_num)

/-! ### The claims -/

/-- Claim C3: for every valid sample, the elastic modulus produced by the
polyfit call over the first five points equals the closed-form
least-squares linear-regression slope of exactly the first five
(strain, stress) pairs; the rest of the sample is irrelevant. -/
theorem modulus_is_least_squares_slope (s : Sample)
    (x0 x1 x2 x3 x4 y0 y1 y2 y3 y4 : ℚ) (rx ry : List ℚ)
    (_hv : ValidSample s)
    (hx : s.strain = x0 :: x1 :: x2 :: x3 :: x4 :: rx)
    (hy : s.stress = y0 :: y1 :: y2 :: y3 :: y4 :: ry) :
    E s = lsqSlope5 x0 x1 x2 x3 x4 y0 y1 y2 y3 y4 := by
  unfold E
  rw [hx, hy, take5_cons, take5_cons]
  unfold polyfitSlope lsqSlope5 mean5
  simp only [List.zipWith_cons_cons, List.zipWith_nil_right, List.map_cons, List.map_nil,
    List.sum_cons, List.sum_nil, List.length_cons, List.length_nil]
  apply div_eq_div_of_mul5
  · push_cast
    field_simp
    ring
  · push_cast
    field_simp
    ring

/-- Validity of the fixture, shared by the witnesses below. -/
theorem fixture_valid : ValidSample fixture := by
  refine ⟨rfl, by norm_num [fixture], ?_, ?_⟩
  · norm_num [fixture, List.chain'_cons]
  · norm_num [fixture, List.forall_mem_cons]

/-- Witness for claim C3 at the specification fixture. -/
theorem modulus_is_least_squares_slope_witness :
    ValidSample fixture ∧
      fixture.strain = 0 :: 1 / 100 :: 1 / 50 :: 1 / 20 :: 1 / 10 :: ([] : List ℚ) ∧
      fixture.stress = 0 :: 200 :: 350 :: 400 :: 380 :: ([] : List ℚ) ∧
      E fixture = lsqSlope5 0 (1 / 100) (1 / 50) (1 / 20) (1 / 10) 0 200 350 400 380 :=
  ⟨fixture_valid, rfl, rfl,
    modulus_is_least_squares_slope fixture 0 (1 / 100) (1 / 50) (1 / 20) (1 / 10)
      0 200 350 400 380 [] [] fixture_valid rfl rfl⟩

/-- Claim C1 (code bug): the specification requires the offset line
offsetStress(strain) = E * (strain - offset) with offset 0.002, a line of
slope E through (offset, 0); the source (line 104) instead computes
E * (strain + 0.002). At modulus 1000 and sampled strain 0.01 the code
produces 12 where the specified ASTM construction gives 8. -/
theorem offset_line_adds_the_offset :
    offset_line 1000 fixture.strain =
      [1000 * (0 + 1 / 500), 1000 * (1 / 100 + 1 / 500), 1000 * (1 / 50 + 1 / 500),
        1000 * (1 / 20 + 1 / 500), 1000 * (1 / 10 + 1 / 500)] ∧
    (1000 : ℚ) * (1 / 100 + 1 / 500) = 12 ∧
    (1000 : ℚ) * (1 / 100 - 1 / 500) = 8 ∧
    (1000 : ℚ) * (1 / 100 + 1 / 500) ≠ 1000 * (1 / 100 - 1 / 500) :=
  ⟨rfl, by norm_num, by norm_num, by norm_num⟩

/-- Claim C2: the yield point is the sample index minimizing the absolute
difference between the measured stress and the offset-line value, over the
whole sample, ties broken by the lowest index; the index is in range and
the returned yield stress and strain are original sample points. -/
theorem yield_locator_nearest_point (e : ℚ) (s : Sample) (hv : ValidSample s) :
    yield_index e s < s.stress.length ∧
    yield_stress e s = s.stress.getD (yield_index e s) 0 ∧
    yield_strain e s = s.strain.getD (yield_index e s) 0 ∧
    yield_stress e s ∈ s.stress ∧
    yield_strain e s ∈ s.strain ∧
    (∀ i, i < s.stress.length →
      |s.stress.getD (yield_index e s) 0 - (offset_line e s.strain).getD (yield_index e s) 0| ≤
        |s.stress.getD i 0 - (offset_line e s.strain).getD i 0|) ∧
    (∀ j, j < yield_index e s →
      |s.stress.getD (yield_index e s) 0 - (offset_line e s.strain).getD (yield_index e s) 0| <
        |s.stress.getD j 0 - (offset_line e s.strain).getD j 0|) := by
  obtain ⟨hlen, h5, -, -⟩ := hv
  set d := List.zipWith (fun σ o => |σ - o|) s.stress (offset_line e s.strain) with hd
  have hol : (offset_line e s.strain).length = s.stress.length := by
    simp [offset_line, hlen]
  have hdl : d.length = s.stress.length := by
    rw [hd, List.length_zipWith, hol, min_self]
  have hdne : d ≠ [] := by
    have hpos : 0 < d.length := by rw [hdl, ← hlen]; omega
    exact List.ne_nil_of_length_pos hpos
  have hk : yield_index e s = idxmin d := rfl
  have hklt : yield_index e s < s.stress.length := by
    rw [hk, ← hdl]
    exact idxmin_lt_length d hdne
  have hgd : ∀ i, i < s.stress.length →
      d.getD i 0 = |s.stress.getD i 0 - (offset_line e s.strain).getD i 0| := by
    intro i hi
    rw [hd]
    exact getD_zipWith _ _ _ i hi (by rw [hol]; exact hi)
  refine ⟨hklt, rfl, rfl, ?_, ?_, ?_, ?_⟩
  · exact getD_mem_of_lt _ _ hklt
  · have hks : yield_index e s < s.strain.length := by rw [hlen]; exact hklt
    exact getD_mem_of_lt _ _ hks
  · intro i hi
    rw [← hgd _ hklt, ← hgd _ hi, hk]
    exact idxmin_le d i (by rw [hdl]; exact hi)
  · intro j hj
    have hjlt : j < s.stress.length := lt_trans hj hklt
    rw [← hgd _ hklt, ← hgd _ hjlt, hk]
    exact idxmin_first d j (by rw [← hk]; exact hj)

/-- Witness for claim C2 at the specification fixture with modulus 1000. -/
theorem yield_locator_nearest_point_witness :
    ValidSample fixture ∧
      (yield_index 1000 fixture < fixture.stress.length ∧
        yield_stress 1000 fixture = fixture.stress.getD (yield_index 1000 fixture) 0 ∧
        yield_strain 1000 fixture = fixture.strain.getD (yield_index 1000 fixture) 0 ∧
        yield_stress 1000 fixture ∈ fixture.stress ∧
        yield_strain 1000 fixture ∈ fixture.strain ∧
        (∀ i, i < fixture.stress.length →
          |fixture.stress.getD (yield_index 1000 fixture) 0 -
              (offset_line 1000 fixture.strain).getD (yield_index 1000 fixture) 0| ≤
            |fixture.stress.getD i 0 - (offset_line 1000 fixture.strain).getD i 0|) ∧
        (∀ j, j < yield_index 1000 fixture →
          |fixture.stress.getD (yield_index 1000 fixture) 0 -
              (offset_line 1000 fixture.strain).getD (yield_index 1000 fixture) 0| <
            |fixture.stress.getD j 0 - (offset_line 1000 fixture.strain).getD j 0|)) :=
  ⟨fixture_valid, yield_locator_nearest_point 1000 fixture fixture_valid⟩

/-- Claim C4: the extracted UTS is the maximum stress value, its index is
the first index attaining that maximum, and the fracture stress and
strain are exactly the stress and strain at the last sample index. -/
theorem strength_extractor_spec (s : Sample)
    (hσ : s.stress ≠ []) (hε : s.strain ≠ []) :
    uts_index s < s.stress.length ∧
    uts_stress s = s.stress.getD (uts_index s) 0 ∧
    uts_stress s ∈ s.stress ∧
    (∀ i, i < s.stress.length → s.stress.getD i 0 ≤ uts_stress s) ∧
    (∀ j, j < uts_index s → s.stress.getD j 0 < uts_stress s) ∧
    fracture_stress s = s.stress.getD (s.stress.length - 1) 0 ∧
    fracture_strain s = s.strain.getD (s.strain.length - 1) 0 := by
  refine ⟨argmax_lt_length _ hσ, rfl, ?_, ?_, ?_, getLastD_eq_getD _ hσ, getLastD_eq_getD _ hε⟩
  · exact getD_mem_of_lt _ _ (argmax_lt_length _ hσ)
  · intro i hi
    exact le_argmax s.stress i hi
  · intro j hj
    exact argmax_first s.stress j hj

/-- Witness for claim C4 at the specification fixture: UTS 400 at index 3,
fracture point (0.1, 380). -/
theorem strength_extractor_spec_witness :
    fixture.stress ≠ [] ∧ fixture.strain ≠ [] ∧
      uts_index fixture = 3 ∧ uts_stress fixture = 400 ∧
      fracture_strain fixture = 1 / 10 ∧ fracture_stress fixture = 380 ∧
      (uts_index fixture < fixture.stress.length ∧
        uts_stress fixture = fixture.stress.getD (uts_index fixture) 0 ∧
        uts_stress fixture ∈ fixture.stress ∧
        (∀ i, i < fixture.stress.length →
          fixture.stress.getD i 0 ≤ uts_stress fixture) ∧
        (∀ j, j < uts_index fixture → fixture.stress.getD j 0 < uts_stress fixture) ∧
        fracture_stress fixture = fixture.stress.getD (fixture.stress.length - 1) 0 ∧
        fracture_strain fixture = fixture.strain.getD (fixture.strain.length - 1) 0) :=
  ⟨by simp [fixture], by simp [fixture], by rfl, by rfl, by rfl, by rfl,
    strength_extractor_spec fixture (by simp [fixture]) (by simp [fixture])⟩

/-- Claim C5: the failure-mode classification is a pure total function of
(utsStress, fractureStress, fractureStrain) applying the rules in fixed
first-match-wins order, and any input with fracture strain 0.3 is
classified ductile cup-and-cone regardless of the stresses. -/
theorem failure_first_match (u f ε : ℚ) :
    (failure u f ε = .ductileCupCone ↔ 1 / 4 < ε) ∧
    (failure u f ε = .brittleCleavage ↔ ¬ 1 / 4 < ε ∧ 1 / 2 * u < u - f) ∧
    (failure u f ε = .lowCycleFatigue ↔ ¬ 1 / 4 < ε ∧ ¬ 1 / 2 * u < u - f) ∧
    failure u f (3 / 10) = .ductileCupCone := by
  refine ⟨?_, ?_, ?_, by unfold failure; rw [if_pos (by norm_num)]⟩
  · constructor
    · intro hEq
      by_contra h1
      unfold failure at hEq
      rw [if_neg h1] at hEq
      split_ifs at hEq
    · intro h1
      unfold failure
      rw [if_pos h1]
  · constructor
    · intro hEq
      unfold failure at hEq
      by_cases h1 : 1 / 4 < ε
      · rw [if_pos h1] at hEq
        exact absurd hEq (by decide)
      · rw [if_neg h1] at hEq
        by_cases h2 : 1 / 2 * u < u - f
        · exact ⟨h1, h2⟩
        · rw [if_neg h2] at hEq
          exact absurd hEq (by decide)
    · rintro ⟨h1, h2⟩
      unfold failure
      rw [if_neg h1, if_pos h2]
  · constructor
    · intro hEq
      unfold failure at hEq
      by_cases h1 : 1 / 4 < ε
      · rw [if_pos h1] at hEq
        exact absurd hEq (by decide)
      · rw [if_neg h1] at hEq
        by_cases h2 : 1 / 2 * u < u - f
        · rw [if_pos h2] at hEq
          exact absurd hEq (by decide)
        · exact ⟨h1, h2⟩
    · rintro ⟨h1, h2⟩
      unfold failure
      rw [if_neg h1, if_neg h2]

/-- Claim C6: for positive working stress the fatigue life estimate is
(1000/workingStress)^3 * 1e6, the safe verdict is life at least 1e6
(inclusive boundary, equivalently workingStress at most 1000), and
working stress 1000 gives life exactly 1e6 and is classified safe. -/
theorem fatigue_life_boundary (w : ℚ) (hw : 0 < w) :
    fatigue_life w = (1000 / w) ^ 3 * 1000000 ∧
    (safe_design w = true ↔ 1000000 ≤ fatigue_life w) ∧
    (safe_design w = true ↔ w ≤ 1000) ∧
    fatigue_life 1000 = 1000000 ∧
    safe_design 1000 = true := by
  have hiff : safe_design w = true ↔ 1000000 ≤ fatigue_life w := by
    unfold safe_design
    exact decide_eq_true_iff
  have hkey : 1000000 ≤ fatigue_life w ↔ w ≤ 1000 := by
    unfold fatigue_life
    rw [le_mul_iff_one_le_left (by norm_num : (0 : ℚ) < 1000000),
      one_le_pow_iff_of_nonneg (by positivity) (by norm_num),
      one_le_div hw]
  refine ⟨rfl, hiff, hiff.trans hkey, by norm_num [fatigue_life], ?_⟩
  · unfold safe_design
    rw [decide_eq_true_iff]
    norm_num [fatigue_life]

/-- Witness for claim C6 at the boundary working stress 1000. -/
theorem fatigue_life_boundary_witness :
    (0 : ℚ) < 1000 ∧
      (fatigue_life 1000 = (1000 / 1000) ^ 3 * 1000000 ∧
        (safe_design 1000 = true ↔ 1000000 ≤ fatigue_life 1000) ∧
        (safe_design 1000 = true ↔ (1000 : ℚ) ≤ 1000) ∧
        fatigue_life 1000 = 1000000 ∧
        safe_design 1000 = true) :=
  ⟨by norm_num, fatigue_life_boundary 1000 (by norm_num)⟩

/-- Claim C8 (modelled from the spec): the Goodman evaluator computes
allowable = (0.5 * uts) * (1 - w/uts), safe threshold = allowable /
factorOfSafety, and the verdict is the strict inequality
w < safeThreshold, so equality is classified unsafe. -/
theorem goodman_evaluator_spec (uts ys w fos : ℚ) (_h : uts ≠ 0) :
    allowableStress .goodman uts ys w = 1 / 2 * uts * (1 - w / uts) ∧
    safeThreshold .goodman uts ys w fos = allowableStress .goodman uts ys w / fos ∧
    (isSafe .goodman uts ys w fos = true ↔ w < safeThreshold .goodman uts ys w fos) ∧
    (w = safeThreshold .goodman uts ys w fos → isSafe .goodman uts ys w fos = false) := by
  refine ⟨rfl, rfl, ?_, ?_⟩
  · unfold isSafe
    exact decide_eq_true_iff
  · intro hEq
    unfold isSafe
    apply decide_eq_false
    rw [← hEq]
    exact lt_irrefl w

/-- Witness for claim C8 at the specification boundary fixture
uts 400, working stress 200, factor of safety 1: allowable 100, unsafe. -/
theorem goodman_evaluator_spec_witness :
    (400 : ℚ) ≠ 0 ∧
      allowableStress .goodman 400 250 200 = 100 ∧
      isSafe .goodman 400 250 200 1 = false ∧
      (allowableStress .goodman 400 250 200 = 1 / 2 * 400 * (1 - 200 / 400) ∧
        safeThreshold .goodman 400 250 200 1 = allowableStress .goodman 400 250 200 / 1 ∧
        (isSafe .goodman 400 250 200 1 = true ↔
          (200 : ℚ) < safeThreshold .goodman 400 250 200 1) ∧
        ((200 : ℚ) = safeThreshold .goodman 400 250 200 1 →
          isSafe .goodman 400 250 200 1 = false)) :=
  ⟨by norm_num, by norm_num [allowableStress, enduranceLimit],
    by
      apply decide_eq_false
      norm_num [safeThreshold, allowableStress, enduranceLimit],
    goodman_evaluator_spec 400 250 200 1 (by norm_num)⟩

/-- Claim C9: each heat treatment applies its fixed table multiplier to the
yield stress; in particular the normalized treatment is the identity. -/
theorem heat_treatment_multipliers (y : ℚ) :
    (heatTreatmentPredict .normalized y).modifiedYieldStress = y ∧
    (heatTreatmentPredict .annealed y).modifiedYieldStress = 4 / 5 * y ∧
    (heatTreatmentPredict .quenched y).modifiedYieldStress = 7 / 5 * y ∧
    (heatTreatmentPredict .tempered y).modifiedYieldStress = 6 / 5 * y :=
  ⟨one_mul y, rfl, rfl, rfl⟩

/-- Claim C7 (modelled from the spec): validation fails with
MalformedInputError whenever a column is missing, non-numeric, empty or
shorter than five rows, fails with InvalidCurveError when the strain
column is not monotonically non-decreasing, and on success returns exactly
the sample made of the two parsed columns, satisfying the invariants. -/
theorem curve_validator_contract (t : RawTable) :
    (t.strainCol = none → validateCurve t = .error .malformedInput) ∧
    (t.stressCol = none → validateCurve t = .error .malformedInput) ∧
    (∀ sc, t.strainCol = some sc → allNumeric sc = none →
      validateCurve t = .error .malformedInput) ∧
    (∀ tc, t.stressCol = some tc → allNumeric tc = none →
      validateCurve t = .error .malformedInput) ∧
    (∀ sc tc xs ys, t.strainCol = some sc → t.stressCol = some tc →
      allNumeric sc = some xs → allNumeric tc = some ys →
      (xs.length < 5 ∨ ys.length < 5) → validateCurve t = .error .malformedInput) ∧
    (∀ sc tc xs ys, t.strainCol = some sc → t.stressCol = some tc →
      allNumeric sc = some xs → allNumeric tc = some ys →
      ¬ (xs.length < 5 ∨ ys.length < 5) → ¬ List.Chain' (fun a b => a ≤ b) xs →
      validateCurve t = .error .invalidCurve) ∧
    (∀ s, validateCurve t = .ok s →
      ∃ sc tc, t.strainCol = some sc ∧ t.stressCol = some tc ∧
        allNumeric sc = some s.strain ∧ allNumeric tc = some s.stress ∧
        5 ≤ s.strain.length ∧ 5 ≤ s.stress.length ∧
        List.Chain' (fun a b => a ≤ b) s.strain) := by
  obtain ⟨oc1, oc2⟩ := t
  refine ⟨?_, ?_, ?_, ?_, ?_, ?_, ?_⟩
  · intro h1
    subst h1
    cases oc2 <;> rfl
  · intro h2
    subst h2
    cases oc1 <;> rfl
  · intro sc h1 hnum
    subst h1
    cases oc2 with
    | none => rfl
    | some tc =>
      unfold validateCurve
      dsimp only
      rw [hnum]
  · intro tc h2 hnum
    subst h2
    cases oc1 with
    | none => rfl
    | some sc =>
      unfold validateCurve
      dsimp only
      rw [hnum]
      cases allNumeric sc <;> rfl
  · intro sc tc xs ys h1 h2 hx hy hshort
    subst h1
    subst h2
    unfold validateCurve
    dsimp only
    rw [hx, hy]
    dsimp only
    rw [if_pos hshort]
  · intro sc tc xs ys h1 h2 hx hy hlong hmono
    subst h1
    subst h2
    unfold validateCurve
    dsimp only
    rw [hx, hy]
    dsimp only
    rw [if_neg hlong, if_neg hmono]
  · intro s hok
    cases oc1 with
    | none =>
      cases oc2 <;> simp [validateCurve] at hok
    | some sc =>
      cases oc2 with
      | none => simp [validateCurve] at hok
      | some tc =>
        unfold validateCurve at hok
        dsimp only at hok
        cases hx : allNumeric sc with
        | none => rw [hx] at hok; simp at hok
        | some xs =>
          cases hy : allNumeric tc with
          | none => rw [hx, hy] at hok; simp at hok
          | some ys =>
            rw [hx, hy] at hok
            dsimp only at hok
            split_ifs at hok with hshort hmono
            injection hok with hok1
            obtain rfl : s = ⟨xs, ys⟩ := hok1.symm
            push_neg at hshort
            exact ⟨sc, tc, rfl, rfl, hx, hy, hshort.1, hshort.2, hmono⟩

/-- Claim C10: for every non-empty sample the derived UTS stress (a maximum
over the stress column) is at least the derived fracture stress (the last
stress value), so the stress drop used by the failure classifier is
nonnegative. -/
theorem uts_dominates_fracture (s : Sample) (h : s.stress ≠ []) :
    fracture_stress s ≤ uts_stress s ∧ 0 ≤ uts_stress s - fracture_stress s := by
  have hlen : s.stress.length - 1 < s.stress.length :=
    Nat.sub_lt (List.length_pos.mpr h) one_pos
  have h1 : fracture_stress s = s.stress.getD (s.stress.length - 1) 0 :=
    getLastD_eq_getD _ h
  have h2 := le_argmax s.stress (s.stress.length - 1) hlen
  have h3 : fracture_stress s ≤ uts_stress s := by
    rw [h1]
    exact h2
  exact ⟨h3, by linarith⟩

/-- Witness for claim C10 at the specification fixture. -/
theorem uts_dominates_fracture_witness :
    fixture.stress ≠ [] ∧
      (fracture_stress fixture ≤ uts_stress fixture ∧
        0 ≤ uts_stress fixture - fracture_stress fixture) :=
  ⟨by simp [fixture], uts_dominates_fracture fixture (by simp [fixture])⟩

end MaterialsLab
